import Mathlib

/-!
Verification of the admission-and-memoization core of the `ai-portfolio`
backend: a shallow embedding of `backend/app/core/cache.py` (`ResponseCache`)
and `backend/app/middleware/cost_limiter.py` (`CostLimiter`), with theorems
settling the specification's claims about them.

Modelling conventions:
- Python `dict` / `OrderedDict` values are ordered association lists
  (`List (key × value)`); insertion order is list order, the front of the
  list is the oldest entry.
- Wall-clock readings (`datetime.utcnow()`, `time.time()`) are passed in
  explicitly as an integer `now` parameter (seconds).
- Python `int` is `Int`; counters that are only ever incremented from 0 are
  `Nat`; monetary costs (Python floats that never influence control flow in
  the modelled code) are carried as `Int`.
- Code that can raise is modelled with `Except String`; the error string
  names the Python exception.
-/

set_option autoImplicit false

namespace AIPortfolio

variable {α : Type}

/-- One cache entry (`CacheEntry.__init__` in `cache.py`): `created_at` is
the current time, `expires_at = created_at + ttl`, `hits` starts at 0 and
`last_accessed` at the creation time. -/
structure CacheEntry (α : Type) where
  value : α
  created_at : Int
  expires_at : Int
  hits : Nat
  last_accessed : Int
deriving DecidableEq

/-- Model of `CacheEntry.__init__`: construct an entry at time `now` with time to
live `ttl` (seconds). -/
def CacheEntry.init (value : α) (ttl : Int) (now : Int) : CacheEntry α :=
  { value := value, created_at := now, expires_at := now + ttl,
    hits := 0, last_accessed := now }

/-- Model of `CacheEntry.is_expired`: `datetime.utcnow() > self.expires_at`. -/
def CacheEntry.is_expired (e : CacheEntry α) (now : Int) : Bool :=
  now > e.expires_at

/-- Model of `CacheEntry.access`: bump `hits`, refresh `last_accessed`, return the
value (the source mutates the entry in place and returns `self.value`). -/
def CacheEntry.access (e : CacheEntry α) (now : Int) : CacheEntry α × α :=
  ({ e with hits := e.hits + 1, last_accessed := now }, e.value)

/-- The `_stats` dictionary of `ResponseCache` (the `total_savings` float is
initialized and never updated anywhere in the source, so it is omitted). -/
structure CacheStats where
  hits : Nat
  misses : Nat
  evictions : Nat
  expired : Nat
deriving DecidableEq

/-- State of `ResponseCache`: configuration plus the `OrderedDict` store
(front = least recently used, back = most recently used) and statistics.
The cached value type is a parameter (`Any` in the source). -/
structure ResponseCache (α : Type) where
  max_size : Int
  default_ttl : Int
  enabled : Bool
  _cache : List (String × CacheEntry α)
  _stats : CacheStats
deriving DecidableEq

/-- Model of `ResponseCache.__init__`: store the configuration unchanged (the source
performs no validation of `max_size`, `default_ttl` or `enabled`), start
with an empty `OrderedDict` and zeroed statistics. -/
def ResponseCache.init (max_size default_ttl : Int) (enabled : Bool) :
    ResponseCache α :=
  { max_size := max_size, default_ttl := default_ttl, enabled := enabled,
    _cache := [], _stats := ⟨0, 0, 0, 0⟩ }

/-- Model of `ResponseCache._generate_key`: the source computes
`hashlib.sha256(raw_key.encode()).hexdigest()` of
`raw_key = f"{namespace}:{identifier}"`.  The SHA-256 hexdigest is a fixed
deterministic function of `raw_key`, and the store consults keys only
through equality, so the model uses `raw_key` itself as the key: two inputs
receive equal keys in the source exactly when they do in the model, up to
SHA-256 collisions (which the specification itself sets aside as
negligible). -/
def ResponseCache._generate_key (ns identifier : String) : String :=
  ns ++ ":" ++ identifier

/-- Model of `ResponseCache.get`: returns the (possibly mutated) cache and the
looked-up value.  Misses and lazily detected expiry update the statistics;
a hit repositions the entry at the most-recently-used end
(`move_to_end`) and bumps its per-entry counters (`entry.access()`). -/
def ResponseCache.get (c : ResponseCache α) (ns identifier : String)
    (now : Int) : ResponseCache α × Option α :=
  if !c.enabled then (c, none)
  else
    let key := ResponseCache._generate_key ns identifier
    match c._cache.find? (fun p => p.1 == key) with
    | none =>
        ({ c with _stats := { c._stats with misses := c._stats.misses + 1 } },
         none)
    | some p =>
        if p.2.is_expired now then
          ({ c with
              _cache := c._cache.filter (fun q => !(q.1 == key)),
              _stats := { c._stats with
                          expired := c._stats.expired + 1,
                          misses := c._stats.misses + 1 } },
           none)
        else
          let av := p.2.access now
          ({ c with
              _cache := c._cache.filter (fun q => !(q.1 == key)) ++ [(key, av.1)],
              _stats := { c._stats with hits := c._stats.hits + 1 } },
           some av.2)

/-- Model of `ttl = ttl or self.default_ttl` on an `Optional[int]`: both `None` and
`0` are falsy in Python, any other integer (negative included) is kept. -/
def ResponseCache.resolve_ttl (ttl : Option Int) (default_ttl : Int) : Int :=
  match ttl with
  | none => default_ttl
  | some t => if t = 0 then default_ttl else t

/-- Model of `ResponseCache.set`: no-op when disabled.  When the store is at
capacity and the key is new, the least-recently-used entry — the head of
the `OrderedDict` — is evicted first (`next(iter(self._cache))`, which
raises `StopIteration` on an empty store, reachable only when
`max_size ≤ 0`).  The new entry is then written at the key and moved to the
most-recently-used end. -/
def ResponseCache.set (c : ResponseCache α) (ns identifier : String)
    (value : α) (ttl : Option Int) (cost : Int) (now : Int) :
    Except String (ResponseCache α) :=
  if !c.enabled then .ok c
  else
    let key := ResponseCache._generate_key ns identifier
    let ttlv := ResponseCache.resolve_ttl ttl c.default_ttl
    let atCapacity := decide ((c._cache.length : Int) ≥ c.max_size)
    let isNew := !(c._cache.any (fun p => p.1 == key))
    let _ := cost
    if atCapacity && isNew then
      match c._cache with
      | [] => .error "StopIteration"
      | _ :: rest =>
          .ok { c with
                _cache := rest ++ [(key, CacheEntry.init value ttlv now)],
                _stats := { c._stats with
                            evictions := c._stats.evictions + 1 } }
    else
      .ok { c with
            _cache := c._cache.filter (fun q => !(q.1 == key))
                        ++ [(key, CacheEntry.init value ttlv now)] }

/-- Model of `ResponseCache.invalidate`: remove the single keyed entry if present,
reporting whether anything was removed. -/
def ResponseCache.invalidate (c : ResponseCache α) (ns identifier : String) :
    ResponseCache α × Bool :=
  if !c.enabled then (c, false)
  else
    let key := ResponseCache._generate_key ns identifier
    if c._cache.any (fun p => p.1 == key) then
      ({ c with _cache := c._cache.filter (fun q => !(q.1 == key)) }, true)
    else (c, false)

/-- Model of `ResponseCache.invalidate_namespace`: in the source the loop over the
store's keys has a body of `pass` (the namespace is not recoverable from
the hashed key), `count` is fixed at `0`, and nothing is deleted — so both
the disabled and the enabled branch return the store unchanged with a
removal count of 0. -/
def ResponseCache.invalidate_namespace (c : ResponseCache α) (ns : String) :
    ResponseCache α × Nat :=
  if !c.enabled then (c, 0)
  else
    let _ := ns
    (c, 0)

/-- Model of `ResponseCache.clear`: drop every entry; statistics are kept. -/
def ResponseCache.clear (c : ResponseCache α) : ResponseCache α :=
  { c with _cache := [] }

/-- Model of `ResponseCache.cleanup_expired` (the periodic sweep): collect the keys
of entries past their deadline, delete them one by one, add the count to
the expired statistic and return it. -/
def ResponseCache.cleanup_expired (c : ResponseCache α) (now : Int) :
    ResponseCache α × Nat :=
  if !c.enabled then (c, 0)
  else
    let expired_keys :=
      (c._cache.filter (fun p => p.2.is_expired now)).map (fun p => p.1)
    let store := expired_keys.foldl
      (fun l k => l.filter (fun q => !(q.1 == k))) c._cache
    ({ c with
        _cache := store,
        _stats := { c._stats with
                    expired := c._stats.expired + expired_keys.length } },
     expired_keys.length)

example :
    ((ResponseCache.init (α := Nat) 2 3600 true).set "ns" "a" 1 (some 60) 0 0).map
      (fun c => c._cache.map (fun p => p.1)) = .ok ["ns:a"] := by rfl

/-! ### Ordered-dictionary helpers shared by the cost limiter

Python `dict` (and `defaultdict`) preserve insertion order; we model them as
association lists.  Updating an existing key keeps its position, a new key
is appended at the end, deletion removes the key. -/

/-- First value stored under `k`, or `d` when the key is absent. -/
def alGetD {β : Type} (l : List (String × β)) (k : String) (d : β) : β :=
  match l.find? (fun p => p.1 == k) with
  | some p => p.2
  | none => d

/-- Model of `l[k] = v`: overwrite in place when the key exists, append otherwise. -/
def alSet {β : Type} (l : List (String × β)) (k : String) (v : β) :
    List (String × β) :=
  if l.any (fun p => p.1 == k) then
    l.map (fun p => if p.1 == k then (k, v) else p)
  else l ++ [(k, v)]

/-- Model of `del l[k]` (tolerating an absent key, as the source always guards or
tolerates this). -/
def alRemove {β : Type} (l : List (String × β)) (k : String) :
    List (String × β) :=
  l.filter (fun p => !(p.1 == k))

/-! ### The cost limiter (`cost_limiter.py`) -/

/-- The two ledger answers the external document store can give a
`CostLimiter` for one `(portfolio_id, date)` query: today's request count
(`find_one`, an absent document already folded to 0 by the source) for the
daily tier, and the aggregated month-to-date request count for the monthly
tier.  `Except.error` stands for the collaborator raising (unreachable
store, timeout, malformed document). -/
structure Ledger where
  daily : Except String Int
  monthly : Except String Int

/-- A returned admission decision (the source builds a `dict`; keys that a
branch does not set are `none` here). -/
structure Decision where
  allowed : Bool
  tier : Option String
  error : Option String
  limit : Option Int
  current : Option Int
deriving DecidableEq

/-- State of `CostLimiter`: the per-session request deques
(`defaultdict(lambda: deque(maxlen=100))` of `(timestamp, cost)` pairs),
the per-session cost totals, the cleanup bookkeeping and the three
configured limits. -/
structure CostLimiter where
  session_requests : List (String × List (Nat × Int))
  session_costs : List (String × Int)
  last_cleanup : Nat
  cleanup_interval : Nat
  session_limit : Int
  daily_limit : Int
  monthly_limit : Int
deriving DecidableEq

/-- Model of `CostLimiter.__init__`: empty tracking state, `last_cleanup` set to the
construction time, `cleanup_interval = 3600`, limits taken from settings. -/
def CostLimiter.init (session_limit daily_limit monthly_limit : Int)
    (now : Nat) : CostLimiter :=
  { session_requests := [], session_costs := [],
    last_cleanup := now, cleanup_interval := 3600,
    session_limit := session_limit, daily_limit := daily_limit,
    monthly_limit := monthly_limit }

/-- The test `requests and requests[-1][0] < cutoff_time` that marks a
session as expired during cleanup: non-empty deque whose most recent
timestamp is older than the cutoff. -/
def staleSession (cutoff : Nat) (reqs : List (Nat × Int)) : Bool :=
  match reqs.getLast? with
  | none => false
  | some e => e.1 < cutoff

/-- Model of `CostLimiter._cleanup_old_sessions`: gated to run at most once per
`cleanup_interval`; when it runs, it collects the sessions whose most
recent request is older than one hour, deletes each from both tracking
dictionaries, and refreshes `last_cleanup`. -/
def CostLimiter._cleanup_old_sessions (st : CostLimiter) (now : Nat) :
    CostLimiter :=
  if now - st.last_cleanup < st.cleanup_interval then st
  else
    let cutoff_time := now - 3600
    let expired_sessions :=
      (st.session_requests.filter (fun p => staleSession cutoff_time p.2)).map
        (fun p => p.1)
    let st' := expired_sessions.foldl
      (fun s sid =>
        { s with
            session_requests := alRemove s.session_requests sid,
            session_costs := alRemove s.session_costs sid })
      st
    { st' with last_cleanup := now }

/-- The `while requests and current_time - requests[0][0] > 3600:
requests.popleft()` loop: drop entries from the front while they are older
than one hour.  (`time.time()` differences are modelled with truncated
natural subtraction; both agree on "older than 3600 seconds".) -/
def trimOld (now : Nat) : List (Nat × Int) → List (Nat × Int)
  | [] => []
  | e :: rest => if now - e.1 > 3600 then trimOld now rest else e :: rest

/-- Model of `CostLimiter._check_session_limit`: fetch (creating if absent — the
deque dictionary is a `defaultdict`) and trim the session's deque, then
compare its length against the session limit.  In the rejecting branch the
source reads `requests[0][0]`, which raises `IndexError` when the deque is
empty (reachable only when `session_limit ≤ 0`). -/
def CostLimiter._check_session_limit (st : CostLimiter) (session_id : String)
    (now : Nat) : Except String (CostLimiter × Bool × Option String) :=
  let requests := trimOld now (alGetD st.session_requests session_id [])
  let st' := { st with
               session_requests := alSet st.session_requests session_id requests }
  if (requests.length : Int) ≥ st.session_limit then
    match requests with
    | [] => .error "IndexError"
    | oldest :: _ =>
        let wait_time := 3600 - (now - oldest.1)
        .ok (st', false, some
          ("Rate limit exceeded. You have made " ++ toString requests.length
            ++ " requests in the last hour. Please try again in "
            ++ toString (wait_time / 60) ++ " minutes."))
  else
    .ok (st', true, none)

/-- Model of `CostLimiter._check_daily_limit`: the whole body runs under
`try/except`; a raising collaborator is logged and turned into
`(True, None, 0)` (fail-open).  Otherwise today's count is compared with
the daily limit. -/
def CostLimiter._check_daily_limit (led : Except String Int)
    (daily_limit : Int) : Bool × Option String × Int :=
  match led with
  | .error _ => (true, none, 0)
  | .ok current_count =>
      if current_count ≥ daily_limit then
        (false, some
          ("Daily limit reached (" ++ toString current_count ++ "/"
            ++ toString daily_limit ++ " requests). Please try again tomorrow."),
         current_count)
      else (true, none, current_count)

/-- Model of `CostLimiter._check_monthly_limit`: same shape as the daily check, with
the month-to-date aggregate of request counts. -/
def CostLimiter._check_monthly_limit (led : Except String Int)
    (monthly_limit : Int) : Bool × Option String × Int :=
  match led with
  | .error _ => (true, none, 0)
  | .ok current_count =>
      if current_count ≥ monthly_limit then
        (false, some
          ("Monthly limit reached (" ++ toString current_count ++ "/"
            ++ toString monthly_limit
            ++ " requests). Limit resets on the 1st of next month."),
         current_count)
      else (true, none, current_count)

/-- Model of `CostLimiter.check_limits`: housekeeping, then the session tier; when
it rejects, answer immediately with tier `"session"`, the message and the
configured limit.  Daily and monthly tiers run (in that order, each able to
answer immediately) only when a database client is supplied; their ledger
answers are the `Ledger` argument.  When every tier passes, the decision is
`allowed = true` with no tier. -/
def CostLimiter.check_limits (st : CostLimiter) (session_id portfolio_id : String)
    (db_client : Option Ledger) (now : Nat) :
    Except String (CostLimiter × Decision) :=
  let _ := portfolio_id
  let st := st._cleanup_old_sessions now
  match st._check_session_limit session_id now with
  | .error e => .error e
  | .ok (st, session_allowed, session_error) =>
    if !session_allowed then
      .ok (st, { allowed := false, tier := some "session",
                 error := session_error, limit := some st.session_limit,
                 current := none })
    else
      match db_client with
      | none =>
          .ok (st, { allowed := true, tier := none, error := none,
                     limit := none, current := none })
      | some ledger =>
          let daily := CostLimiter._check_daily_limit ledger.daily st.daily_limit
          if !daily.1 then
            .ok (st, { allowed := false, tier := some "daily",
                       error := daily.2.1, limit := some st.daily_limit,
                       current := some daily.2.2 })
          else
            let monthly :=
              CostLimiter._check_monthly_limit ledger.monthly st.monthly_limit
            if !monthly.1 then
              .ok (st, { allowed := false, tier := some "monthly",
                         error := monthly.2.1, limit := some st.monthly_limit,
                         current := some monthly.2.2 })
            else
              .ok (st, { allowed := true, tier := none, error := none,
                         limit := none, current := none })

/-- Model of `deque(maxlen=100).append`: when the deque already holds 100 entries
the leftmost one is silently dropped to make room. -/
def dequeAppend (d : List (Nat × Int)) (x : Nat × Int) : List (Nat × Int) :=
  if d.length ≥ 100 then d.tail ++ [x] else d ++ [x]

/-- Model of `CostLimiter.record_request`: append `(now, cost)` to the session's
deque and accumulate the session's running cost total. -/
def CostLimiter.record_request (st : CostLimiter) (session_id : String)
    (now : Nat) (cost : Int) : CostLimiter :=
  { st with
      session_requests :=
        alSet st.session_requests session_id
          (dequeAppend (alGetD st.session_requests session_id []) (now, cost)),
      session_costs :=
        alSet st.session_costs session_id
          (alGetD st.session_costs session_id 0 + cost) }

example :
    (CostLimiter.check_limits (CostLimiter.init 10 100 2000 0) "s" "p" none 0).map
      (fun r => r.2.allowed) = .ok true := by rfl

example :
    (CostLimiter.check_limits (CostLimiter.init 10 100 2000 0) "s" "p"
        (some ⟨.ok 100, .ok 5⟩) 0).map
      (fun r => (r.2.allowed, r.2.tier, r.2.current)) =
      .ok (false, some "daily", some 100) := by rfl

/-- Result of a `set` call that is known not to raise, used to chain
operations in concrete scenarios and in the operation-sequence semantics.
When the source would raise, the state is returned unchanged: the
`StopIteration` in `set` happens before any mutation. -/
def ResponseCache.applySet (c : ResponseCache α) (ns identifier : String)
    (v : α) (ttl : Option Int) (cost now : Int) : ResponseCache α :=
  match c.set ns identifier v ttl cost now with
  | .ok c' => c'
  | .error _ => c

/-! ### Association-list lemmas -/

theorem filter_ne_key_eq_self {β : Type} (l : List (String × β)) (key : String)
    (h : l.any (fun p => p.1 == key) = false) :
    l.filter (fun q => !(q.1 == key)) = l := by
  induction l with
  | nil => rfl
  | cons a t ih =>
    simp only [List.any_cons, Bool.or_eq_false_iff] at h
    simp [List.filter_cons, h.1, ih h.2]

theorem filter_ne_key_length_lt {β : Type} (l : List (String × β)) (key : String)
    (h : l.any (fun p => p.1 == key) = true) :
    (l.filter (fun q => !(q.1 == key))).length < l.length := by
  induction l with
  | nil => simp at h
  | cons a t ih =>
    by_cases hk : (a.1 == key) = true
    · simp only [List.filter_cons, hk, Bool.not_true, List.length_cons]
      exact Nat.lt_succ_of_le (List.length_filter_le _ _)
    · rw [Bool.not_eq_true] at hk
      simp only [List.any_cons, hk, Bool.false_or] at h
      simp only [List.filter_cons, hk, Bool.not_false, List.length_cons, if_true]
      exact Nat.succ_lt_succ (ih h)

theorem find?_key_append_singleton {β : Type} (l : List (String × β))
    (key : String) (e : β) (h : l.all (fun p => !(p.1 == key)) = true) :
    (l ++ [(key, e)]).find? (fun p => p.1 == key) = some (key, e) := by
  induction l with
  | nil => simp [List.find?]
  | cons a t ih =>
    simp only [List.all_cons, Bool.and_eq_true, Bool.not_eq_true'] at h
    rw [List.cons_append, List.find?_cons_of_neg _ (by simp [h.1]), ih]
    simp only [List.all_eq_true, Bool.not_eq_true']
    intro p hp
    have := List.all_eq_true.mp h.2 p hp
    simpa using this

theorem all_not_key_filter {β : Type} (l : List (String × β)) (key : String) :
    (l.filter (fun q => !(q.1 == key))).all (fun p => !(p.1 == key)) = true := by
  simp only [List.all_eq_true]
  intro p hp
  exact (List.mem_filter.mp hp).2

/-! ### C4 — cache-key encoding -/

/-- Claim C4, counterexample: the source joins namespace and identifier
with a bare `":"` before hashing, so namespace `"a:b"` with identifier
`"c"` and namespace `"a"` with identifier `"b:c"` produce the *same*
raw key `"a:b:c"` and therefore the same SHA-256 cache key, contradicting
the claim that the two pairs must not map to the same key. -/
theorem generate_key_separator_ambiguous :
    ResponseCache._generate_key "a:b" "c" =
      ResponseCache._generate_key "a" "b:c" := by decide

theorem append_colon_inj {l1 : List Char} {l2 r1 r2 : List Char}
    (h1 : l1.all (fun ch => ch != ':') = true)
    (h2 : l2.all (fun ch => ch != ':') = true)
    (h : l1 ++ ':' :: r1 = l2 ++ ':' :: r2) : l1 = l2 ∧ r1 = r2 := by
  induction l1 generalizing l2 with
  | nil =>
    cases l2 with
    | nil => simpa using h
    | cons b t =>
      simp only [List.nil_append, List.cons_append] at h
      injection h with hb _
      simp [← hb] at h2
  | cons a t1 ih =>
    cases l2 with
    | nil =>
      simp only [List.nil_append, List.cons_append] at h
      injection h with ha _
      simp [ha] at h1
    | cons b t2 =>
      simp only [List.cons_append] at h
      injection h with hab htail
      simp only [List.all_cons, Bool.and_eq_true] at h1 h2
      obtain ⟨e1, e2⟩ := ih h1.2 h2.2 htail
      exact ⟨by rw [hab, e1], e2⟩

/-- Claim C4, amended: the key encoding is injective (up to hash
collisions, which the model factors out) exactly on inputs whose
*namespace* contains no `':'` separator character: for colon-free
namespaces, equal keys force equal `(namespace, identifier)` pairs.  (The
counterexample above shows injectivity fails when the namespace itself
contains `':'`.) -/
theorem generate_key_injective_on_colon_free_namespaces
    (ns ns' ident ident' : String)
    (h1 : ns.data.all (fun ch => ch != ':') = true)
    (h2 : ns'.data.all (fun ch => ch != ':') = true)
    (h : ResponseCache._generate_key ns ident =
          ResponseCache._generate_key ns' ident') :
    ns = ns' ∧ ident = ident' := by
  have hd : ns.data ++ ':' :: ident.data = ns'.data ++ ':' :: ident'.data := by
    have hc := congrArg String.data h
    simpa [ResponseCache._generate_key, String.data_append] using hc
  obtain ⟨e1, e2⟩ := append_colon_inj h1 h2 hd
  exact ⟨String.ext e1, String.ext e2⟩

/-- Witness for the amended C4 theorem at concrete colon-free input. -/
theorem generate_key_injective_witness :
    ("vector" : String).data.all (fun ch => ch != ':') = true
    ∧ ("vector" : String) = "vector" ∧ ("q1" : String) = "q1" :=
  ⟨by decide,
   (generate_key_injective_on_colon_free_namespaces "vector" "vector" "q1" "q1"
      (by decide) (by decide) rfl)⟩

/-! ### C8 — constructor performs no validation -/

/-- Claim C8, counterexample: constructing a `ResponseCache` with
`max_size = 0` does not raise — the constructor produces a cache instance
with the nonsensical bound stored as-is, contradicting the claim that
construction must be fatal for `max_size ≤ 0`. -/
theorem init_with_zero_max_size_returns_instance :
    ResponseCache.init (α := Nat) 0 3600 true =
      { max_size := 0, default_ttl := 3600, enabled := true,
        _cache := [], _stats := ⟨0, 0, 0, 0⟩ } := by rfl

/-- Claim C8, amended: the constructor performs no validation at all — for
any `max_size ≤ 0` it returns an instance holding the given configuration
verbatim; the nonsensical bound instead surfaces only later, on the first
`set` against the enabled empty store, which raises `StopIteration` while
trying to evict from an empty `OrderedDict`. -/
theorem init_accepts_nonpositive_max_size (m t : Int) (ns ident : String)
    (v : α) (hm : m ≤ 0) :
    ResponseCache.init (α := α) m t true =
      { max_size := m, default_ttl := t, enabled := true,
        _cache := [], _stats := ⟨0, 0, 0, 0⟩ }
    ∧ (ResponseCache.init (α := α) m t true).set ns ident v none 0 0 =
        .error "StopIteration" := by
  refine ⟨rfl, ?_⟩
  have hcap : ((([] : List (String × CacheEntry α)).length : Int) ≥ m) := by
    simpa using hm
  simp [ResponseCache.set, ResponseCache.init, hcap, hm]

/-- Witness for the amended C8 theorem at `max_size = 0`. -/
theorem init_accepts_nonpositive_max_size_witness :
    (0 : Int) ≤ 0
    ∧ (ResponseCache.init (α := Nat) 0 3600 true =
        { max_size := 0, default_ttl := 3600, enabled := true,
          _cache := [], _stats := ⟨0, 0, 0, 0⟩ }
      ∧ (ResponseCache.init (α := Nat) 0 3600 true).set "ns" "x" 5 none 0 0 =
          .error "StopIteration") :=
  ⟨by decide, init_accepts_nonpositive_max_size 0 3600 "ns" "x" 5 (by decide)⟩

/-! ### C5 — `invalidate_namespace` is a stub -/

/-- Claim C5 (code bug): on an enabled cache, after `set("ns","id",7)`,
`invalidate_namespace("ns")` removes nothing and returns 0, and the entry
is still served by a subsequent `get` — the source's loop body is `pass`
and its own docstring ("Invalidate all entries in a namespace") is not
implemented. -/
theorem invalidate_namespace_removes_nothing :
    (((ResponseCache.init (α := Nat) 10 3600 true).set "ns" "id" 7 (some 60) 0 0).map
      (fun c => ((c.invalidate_namespace "ns").2,
                 ((c.invalidate_namespace "ns").1.get "ns" "id" 0).2)))
      = .ok (0, some 7) := by rfl

/-! ### C9 — a zero TTL falls back to the default TTL -/

theorem get_of_find_live (c : ResponseCache α) (ns ident : String) (now : Int)
    (e : CacheEntry α) (hen : c.enabled = true)
    (hf : c._cache.find? (fun p => p.1 == ResponseCache._generate_key ns ident) =
            some (ResponseCache._generate_key ns ident, e))
    (hlive : e.is_expired now = false) :
    (c.get ns ident now).2 = some e.value := by
  simp [ResponseCache.get, hen, hf, hlive, CacheEntry.access]

/-- Claim C9, counterexample: the universally quantified claim fails for an
enabled cache whose `default_ttl` is negative — `set` with `ttl = 0` still
substitutes the default (so `expires_at = created_at + default_ttl`), but
the entry is then already past its deadline and the immediate `get` misses
instead of returning the value. -/
theorem set_zero_ttl_with_negative_default_misses :
    (((ResponseCache.init (α := Nat) 10 (-1) true).set "ns" "x" 5 (some 0) 0 0).map
      (fun c => ((c.get "ns" "x" 0).2,
                 (c._cache.find? (fun p => p.1 == "ns:x")).map
                   (fun p => p.2.expires_at))))
      = .ok (none, some (-1)) := by rfl

/-- Claim C9, amended: on every enabled cache whose `default_ttl` is
non-negative, a `set` with `ttl = 0` that completes does not create an
immediately expired entry: the zero TTL is silently replaced by
`default_ttl` (Python's `ttl or self.default_ttl` treats `0` as falsy), the
stored entry satisfies `expires_at = created_at + default_ttl`, and an
immediate `get` (same timestamp) returns the value. -/
theorem set_zero_ttl_uses_default (c c' : ResponseCache α) (ns ident : String)
    (v : α) (cost now : Int) (hen : c.enabled = true)
    (hd : 0 ≤ c.default_ttl)
    (hset : c.set ns ident v (some 0) cost now = .ok c') :
    c'._cache.find? (fun p => p.1 == ResponseCache._generate_key ns ident) =
      some (ResponseCache._generate_key ns ident,
            CacheEntry.init v c.default_ttl now)
    ∧ (c'.get ns ident now).2 = some v := by
  have hen' : c'.enabled = true ∧
      c'._cache.find? (fun p => p.1 == ResponseCache._generate_key ns ident) =
        some (ResponseCache._generate_key ns ident,
              CacheEntry.init v c.default_ttl now) := by
    simp only [ResponseCache.set, hen, Bool.not_true, Bool.false_eq_true,
      if_false, ResponseCache.resolve_ttl, if_pos rfl] at hset
    split at hset
    · next hcond =>
      have hnew : (c._cache.any
          (fun p => p.1 == ResponseCache._generate_key ns ident)) = false := by
        have h2 := (Bool.and_eq_true _ _ |>.mp hcond).2
        simpa using h2
      rcases hc : c._cache with _ | ⟨hd0, rest⟩
      · rw [hc] at hset; cases hset
      · rw [hc] at hset
        simp only [Except.ok.injEq] at hset
        subst hset
        refine ⟨rfl, ?_⟩
        rw [hc] at hnew
        simp only [List.any_cons, Bool.or_eq_false_iff] at hnew
        refine find?_key_append_singleton rest _ _ ?_
        simp only [List.all_eq_true, Bool.not_eq_true']
        intro p hp
        exact Bool.not_eq_true _ |>.mp (List.any_eq_false.mp hnew.2 p hp)
    · simp only [Except.ok.injEq] at hset
      subst hset
      exact ⟨rfl, find?_key_append_singleton _ _ _ (all_not_key_filter _ _)⟩
  refine ⟨hen'.2, ?_⟩
  refine get_of_find_live c' ns ident now _ hen'.1 hen'.2 ?_
  simp only [CacheEntry.is_expired, CacheEntry.init, decide_eq_false_iff_not,
    not_lt]
  omega

/-- Witness for the amended C9 theorem on a fresh enabled cache with
`default_ttl = 3600`. -/
theorem set_zero_ttl_uses_default_witness :
    (ResponseCache.init (α := Nat) 10 3600 true).enabled = true
    ∧ (0 : Int) ≤ (ResponseCache.init (α := Nat) 10 3600 true).default_ttl
    ∧ ((⟨10, 3600, true, [("ns:x", ⟨5, 0, 3600, 0, 0⟩)], ⟨0, 0, 0, 0⟩⟩ :
          ResponseCache Nat)._cache.find?
        (fun p => p.1 == ResponseCache._generate_key "ns" "x") =
        some (ResponseCache._generate_key "ns" "x",
              CacheEntry.init 5
                (ResponseCache.init (α := Nat) 10 3600 true).default_ttl 0))
    ∧ (((⟨10, 3600, true, [("ns:x", ⟨5, 0, 3600, 0, 0⟩)], ⟨0, 0, 0, 0⟩⟩ :
          ResponseCache Nat)).get "ns" "x" 0).2 = some 5 := by
  have happ := set_zero_ttl_uses_default (ResponseCache.init (α := Nat) 10 3600 true)
    (⟨10, 3600, true, [("ns:x", ⟨5, 0, 3600, 0, 0⟩)], ⟨0, 0, 0, 0⟩⟩ :
      ResponseCache Nat) "ns" "x" 5 0 0 rfl (by decide) (by rfl)
  exact ⟨rfl, by decide, happ.1, happ.2⟩

/-! ### C3 — daily/monthly checks fail open -/

/-- Claim C3: whenever the session tier admits the request, a ledger store
that raises during both the daily and the monthly check never propagates
the error and never turns it into a rejection — `check_limits` returns the
fully-allowed decision. -/
theorem check_limits_fail_open (st : CostLimiter) (sid pid e1 e2 : String)
    (now : Nat)
    (h : ∃ st1 msg, (st._cleanup_old_sessions now)._check_session_limit sid now =
          .ok (st1, true, msg)) :
    (st.check_limits sid pid (some ⟨.error e1, .error e2⟩) now).map
      (fun r => r.2) =
      .ok { allowed := true, tier := none, error := none, limit := none,
            current := none } := by
  obtain ⟨st1, msg, heq⟩ := h
  simp [CostLimiter.check_limits, heq, CostLimiter._check_daily_limit,
    CostLimiter._check_monthly_limit, Except.map]

/-- Witness for C3 on a fresh limiter whose session tier admits. -/
theorem check_limits_fail_open_witness :
    ((CostLimiter.init 10 100 2000 0)._cleanup_old_sessions 0)._check_session_limit
        "s" 0 =
      .ok (⟨[("s", [])], [], 0, 3600, 10, 100, 2000⟩, true, none)
    ∧ ((CostLimiter.init 10 100 2000 0).check_limits "s" "p"
          (some ⟨.error "down", .error "down"⟩) 0).map (fun r => r.2) =
        .ok { allowed := true, tier := none, error := none, limit := none,
              current := none } :=
  ⟨by rfl,
   check_limits_fail_open (CostLimiter.init 10 100 2000 0) "s" "p" "down" "down" 0
     ⟨⟨[("s", [])], [], 0, 3600, 10, 100, 2000⟩, none, by rfl⟩⟩

/-! ### C1 — LRU eviction on `set` -/

/-- Claim C1: for an enabled cache holding exactly `max_size` entries, a
`set` with a new key evicts precisely the least-recently-touched entry —
the head of the recency-ordered store, where every `get` hit and every
`set` repositions the touched entry at the back — increments the eviction
counter, and inserts the new entry as most-recently-used (at the back). -/
theorem set_evicts_lru (c : ResponseCache α) (ns ident : String) (v : α)
    (ttl : Option Int) (cost now : Int)
    (hen : c.enabled = true)
    (hfull : (c._cache.length : Int) = c.max_size)
    (hne : c._cache ≠ [])
    (hnew : c._cache.any
        (fun p => p.1 == ResponseCache._generate_key ns ident) = false) :
    c.set ns ident v ttl cost now =
      .ok { c with
            _cache := c._cache.tail ++
              [(ResponseCache._generate_key ns ident,
                CacheEntry.init v (ResponseCache.resolve_ttl ttl c.default_ttl) now)],
            _stats := { c._stats with
                        evictions := c._stats.evictions + 1 } } := by
  have hcap : decide ((c._cache.length : Int) ≥ c.max_size) = true := by
    simp only [decide_eq_true_eq]
    exact hfull.ge
  simp only [ResponseCache.set, hen, Bool.not_true, Bool.false_eq_true,
    if_false, hcap, hnew, Bool.not_false, Bool.and_self, if_true]
  rcases hc : c._cache with _ | ⟨h0, t⟩
  · exact absurd hc hne
  · simp [hc]

/-- Cache state of the spec's concrete scenario (`max_size=2, ttl=60`)
after `set("ns","a",1)`, `set("ns","b",2)`, `get("ns","a")`: the store
holds `b` (least recently used) then `a` (most recently used). -/
def scenarioPreState : ResponseCache Nat :=
  ((((ResponseCache.init 2 60 true).applySet "ns" "a" 1 none 0 0).applySet
      "ns" "b" 2 none 0 0).get "ns" "a" 0).1

/-- Witness for C1 instantiating the theorem on the spec scenario, then
checking the scenario's observable outcome: after `set("ns","c",3)`,
`get("ns","b")` is absent while `get("ns","a") = 1` and
`get("ns","c") = 3`. -/
theorem set_evicts_lru_witness :
    scenarioPreState.enabled = true
    ∧ ((scenarioPreState._cache.length : Int) = scenarioPreState.max_size)
    ∧ scenarioPreState._cache ≠ []
    ∧ scenarioPreState._cache.any
        (fun p => p.1 == ResponseCache._generate_key "ns" "c") = false
    ∧ (scenarioPreState.set "ns" "c" 3 none 0 0 =
        .ok { scenarioPreState with
              _cache := scenarioPreState._cache.tail ++
                [(ResponseCache._generate_key "ns" "c",
                  CacheEntry.init 3
                    (ResponseCache.resolve_ttl none scenarioPreState.default_ttl) 0)],
              _stats := { scenarioPreState._stats with
                          evictions := scenarioPreState._stats.evictions + 1 } })
    ∧ ((scenarioPreState.applySet "ns" "c" 3 none 0 0).get "ns" "b" 0).2 = none
    ∧ ((((scenarioPreState.applySet "ns" "c" 3 none 0 0).get "ns" "b" 0).1.get
          "ns" "a" 0).2 = some 1)
    ∧ (((((scenarioPreState.applySet "ns" "c" 3 none 0 0).get "ns" "b" 0).1.get
          "ns" "a" 0).1.get "ns" "c" 0).2 = some 3) := by
  refine ⟨rfl, by decide, by decide, by decide, ?_, by decide, by decide,
    by decide⟩
  exact set_evicts_lru scenarioPreState "ns" "c" 3 none 0 0 rfl (by decide)
    (by decide) (by decide)

/-! ### C7 — the size bound is an invariant of every operation sequence -/

/-- One public cache operation together with the inputs the source reads
from the outside world (arguments and the wall clock). -/
inductive CacheOp (α : Type) where
  | get (ns ident : String) (now : Int)
  | set (ns ident : String) (v : α) (ttl : Option Int) (cost now : Int)
  | invalidate (ns ident : String)
  | invalidateNamespace (ns : String)
  | clear
  | cleanupExpired (now : Int)

/-- State reached after one operation.  A `set` that raises
(`StopIteration` from evicting an empty store) leaves the state unchanged,
since the raise happens before any mutation. -/
def applyOp (c : ResponseCache α) : CacheOp α → ResponseCache α
  | .get ns ident now => (c.get ns ident now).1
  | .set ns ident v ttl cost now => c.applySet ns ident v ttl cost now
  | .invalidate ns ident => (c.invalidate ns ident).1
  | .invalidateNamespace ns => (c.invalidate_namespace ns).1
  | .clear => c.clear
  | .cleanupExpired now => (c.cleanup_expired now).1

theorem foldl_filter_length_le {β : Type} (ids : List String)
    (l : List (String × β)) :
    (ids.foldl (fun acc k => acc.filter (fun q => !(q.1 == k))) l).length
      ≤ l.length := by
  induction ids generalizing l with
  | nil => exact Nat.le_refl _
  | cons i t ih =>
      exact le_trans (ih _) (List.length_filter_le _ _)

theorem set_ok_max_size (c c' : ResponseCache α) (ns ident : String) (v : α)
    (ttl : Option Int) (cost now : Int)
    (hs : c.set ns ident v ttl cost now = .ok c') :
    c'.max_size = c.max_size := by
  simp only [ResponseCache.set] at hs
  split at hs
  · injection hs with h'; subst h'; rfl
  · split at hs
    · rcases hc : c._cache with _ | ⟨h0, t⟩
      · rw [hc] at hs; cases hs
      · rw [hc] at hs
        simp only [Except.ok.injEq] at hs
        subst hs; rfl
    · simp only [Except.ok.injEq] at hs
      subst hs; rfl

theorem applyOp_max_size (c : ResponseCache α) (op : CacheOp α) :
    (applyOp c op).max_size = c.max_size := by
  cases op with
  | get ns ident now =>
      cases hen : c.enabled
      · simp [applyOp, ResponseCache.get, hen]
      · rcases hf : c._cache.find?
            (fun p => p.1 == ResponseCache._generate_key ns ident) with _ | p
        · simp [applyOp, ResponseCache.get, hen, hf]
        · cases he : p.2.is_expired now <;>
            simp [applyOp, ResponseCache.get, hen, hf, he]
  | set ns ident v ttl cost now =>
      simp only [applyOp, ResponseCache.applySet]
      rcases hs : c.set ns ident v ttl cost now with e | c'
      · rfl
      · exact set_ok_max_size c c' ns ident v ttl cost now hs
  | invalidate ns ident =>
      simp only [applyOp, ResponseCache.invalidate]
      split
      · rfl
      · split <;> rfl
  | invalidateNamespace ns =>
      simp only [applyOp, ResponseCache.invalidate_namespace]
      split <;> rfl
  | clear => rfl
  | cleanupExpired now =>
      simp only [applyOp, ResponseCache.cleanup_expired]
      split <;> rfl

theorem set_ok_size (c c' : ResponseCache α) (ns ident : String) (v : α)
    (ttl : Option Int) (cost now : Int)
    (h : (c._cache.length : Int) ≤ c.max_size)
    (hs : c.set ns ident v ttl cost now = .ok c') :
    (c'._cache.length : Int) ≤ c.max_size := by
  simp only [ResponseCache.set] at hs
  split at hs
  · injection hs with h'; subst h'; exact h
  · split at hs
    · next hcond =>
        rcases hc : c._cache with _ | ⟨h0, t⟩
        · rw [hc] at hs; cases hs
        · rw [hc] at hs
          simp only [Except.ok.injEq] at hs
          subst hs
          rw [hc] at h
          simp only [List.length_append, List.length_cons, List.length_nil] at *
          omega
    · next hcond =>
        simp only [Except.ok.injEq] at hs
        subst hs
        simp only [List.length_append, List.length_cons, List.length_nil]
        by_cases hk : c._cache.any
            (fun p => p.1 == ResponseCache._generate_key ns ident) = true
        · have hlt := filter_ne_key_length_lt c._cache _ hk
          omega
        · have hk' : c._cache.any
              (fun p => p.1 == ResponseCache._generate_key ns ident) = false :=
            Bool.not_eq_true _ |>.mp hk
          rw [filter_ne_key_eq_self _ _ hk']
          have hcap : ¬ ((c._cache.length : Int) ≥ c.max_size) := by
            intro hge
            exact hcond (by simp [hge, hk'])
          omega

theorem applyOp_size (c : ResponseCache α) (op : CacheOp α)
    (h : (c._cache.length : Int) ≤ c.max_size) :
    ((applyOp c op)._cache.length : Int) ≤ c.max_size := by
  cases op with
  | get ns ident now =>
      cases hen : c.enabled
      · simpa [applyOp, ResponseCache.get, hen] using h
      · rcases hf : c._cache.find?
            (fun p => p.1 == ResponseCache._generate_key ns ident) with _ | p
        · simpa [applyOp, ResponseCache.get, hen, hf] using h
        · have hpred : (p.1 == ResponseCache._generate_key ns ident) = true := by
            have hp := List.find?_some hf
            simpa using hp
          have hany : c._cache.any
              (fun p => p.1 == ResponseCache._generate_key ns ident) = true :=
            List.any_eq_true.mpr ⟨p, List.mem_of_find?_eq_some hf, hpred⟩
          have hlt := filter_ne_key_length_lt c._cache
            (ResponseCache._generate_key ns ident) hany
          cases he : p.2.is_expired now
          · simp [applyOp, ResponseCache.get, hen, hf, he]
            omega
          · simp [applyOp, ResponseCache.get, hen, hf, he]
            omega
  | set ns ident v ttl cost now =>
      simp only [applyOp, ResponseCache.applySet]
      rcases hs : c.set ns ident v ttl cost now with e | c'
      · exact h
      · exact set_ok_size c c' ns ident v ttl cost now h hs
  | invalidate ns ident =>
      simp only [applyOp, ResponseCache.invalidate]
      split
      · exact h
      · split
        · have := List.length_filter_le
            (fun q => !(q.1 == ResponseCache._generate_key ns ident)) c._cache
          simp only []
          omega
        · exact h
  | invalidateNamespace ns =>
      simp only [applyOp, ResponseCache.invalidate_namespace]
      split <;> exact h
  | clear =>
      simp only [applyOp, ResponseCache.clear, List.length_nil]
      omega
  | cleanupExpired now =>
      simp only [applyOp, ResponseCache.cleanup_expired]
      split
      · exact h
      · have := foldl_filter_length_le
          ((c._cache.filter (fun p => p.2.is_expired now)).map (fun p => p.1))
          c._cache
        simp only []
        omega

/-- Claim C7, amended: for every cache constructed with `max_size ≥ 0`,
after any sequence of `get`, `set`, `invalidate`, namespace invalidation,
`clear` and expiry-sweep operations, the number of stored entries is at
most `max_size` once each operation completes (a `set` whose eviction
raises completes no mutation and is counted as leaving the state
unchanged). -/
theorem cache_size_bounded (m t : Int) (e : Bool) (ops : List (CacheOp α))
    (hm : 0 ≤ m) :
    (((ops.foldl applyOp (ResponseCache.init (α := α) m t e))._cache.length : Int))
      ≤ m := by
  suffices h : ∀ c : ResponseCache α,
      (c._cache.length : Int) ≤ c.max_size → c.max_size = m →
      ((ops.foldl applyOp c)._cache.length : Int) ≤ m by
    refine h _ ?_ rfl
    simpa [ResponseCache.init] using hm
  induction ops with
  | nil =>
      intro c hc hme
      simpa [hme] using hc
  | cons op rest ih =>
      intro c hc hme
      refine ih (applyOp c op) ?_ ?_
      · rw [applyOp_max_size]
        exact applyOp_size c op hc
      · rw [applyOp_max_size]
        exact hme

/-- Claim C7, counterexample: the claim quantifies over *every* constructed
cache, but the unvalidated constructor accepts `max_size = -1`, and after a
completed `clear` the (empty) store still has more entries than the
negative bound allows — `0 ≤ -1` is false. -/
theorem size_bound_fails_for_negative_max_size :
    ¬ (((([CacheOp.clear] : List (CacheOp Nat)).foldl applyOp
          (ResponseCache.init (-1) 3600 true))._cache.length : Int)
        ≤ (ResponseCache.init (α := Nat) (-1) 3600 true).max_size) := by decide

/-- Witness for the amended C7 theorem on a concrete operation sequence
exercising eviction, invalidation, clearing and sweeping. -/
theorem cache_size_bounded_witness :
    (0 : Int) ≤ 2
    ∧ ((([CacheOp.set "ns" "a" 1 none 0 0, CacheOp.set "ns" "b" 2 none 0 0,
          CacheOp.get "ns" "a" 0, CacheOp.set "ns" "c" 3 none 0 0,
          CacheOp.invalidate "ns" "a", CacheOp.invalidateNamespace "ns",
          CacheOp.clear, CacheOp.cleanupExpired 100] :
            List (CacheOp Nat)).foldl applyOp
          (ResponseCache.init 2 60 true))._cache.length : Int) ≤ 2 :=
  ⟨by decide, cache_size_bounded 2 60 true _ (by decide)⟩

/-! ### C10 — cleanup removes exactly the non-empty stale sessions -/

theorem cleanup_foldl_fields (ids : List String) (st : CostLimiter) :
    (ids.foldl
      (fun s sid =>
        { s with
            session_requests := alRemove s.session_requests sid,
            session_costs := alRemove s.session_costs sid }) st) =
    { st with
        session_requests := ids.foldl (fun l k => alRemove l k) st.session_requests,
        session_costs := ids.foldl (fun l k => alRemove l k) st.session_costs } := by
  induction ids generalizing st with
  | nil => rfl
  | cons i t ih =>
      simp only [List.foldl_cons]
      rw [ih]

theorem foldl_alRemove_eq_filter {β : Type} (ids : List String)
    (l : List (String × β)) :
    ids.foldl (fun acc k => alRemove acc k) l =
      l.filter (fun p => !(ids.contains p.1)) := by
  induction ids generalizing l with
  | nil => simp
  | cons i t ih =>
      rw [List.foldl_cons, ih]
      simp only [alRemove]
      rw [List.filter_filter]
      refine List.filter_congr ?_
      intro p _
      simp only [List.contains_cons]
      cases hpi : p.1 == i <;> cases hpt : t.contains p.1 <;> simp [hpi, hpt]

/-- Claim C10: when the cleanup pass actually runs (the once-per-interval
gate is open), it removes exactly the sessions whose request deque is
non-empty with a most recent timestamp older than the cutoff (deleting
their cost totals as well), leaves every other tracked session — in
particular any session whose deque was trimmed to empty by a prior limit
check — unchanged and still tracked, and refreshes `last_cleanup`. -/
theorem cleanup_removes_exactly_stale (st : CostLimiter) (now : Nat)
    (hnd : (st.session_requests.map Prod.fst).Nodup)
    (hg : ¬ (now - st.last_cleanup < st.cleanup_interval)) :
    (st._cleanup_old_sessions now).session_requests =
        st.session_requests.filter (fun p => !staleSession (now - 3600) p.2)
    ∧ (st._cleanup_old_sessions now).session_costs =
        st.session_costs.filter (fun q =>
          !(((st.session_requests.filter
              (fun p => staleSession (now - 3600) p.2)).map (fun p => p.1)).contains q.1))
    ∧ (st._cleanup_old_sessions now).last_cleanup = now := by
  have hfields : (st._cleanup_old_sessions now).session_requests =
        st.session_requests.filter (fun p =>
          !(((st.session_requests.filter
              (fun p => staleSession (now - 3600) p.2)).map (fun p => p.1)).contains p.1))
      ∧ (st._cleanup_old_sessions now).session_costs =
          st.session_costs.filter (fun q =>
            !(((st.session_requests.filter
                (fun p => staleSession (now - 3600) p.2)).map (fun p => p.1)).contains q.1))
      ∧ (st._cleanup_old_sessions now).last_cleanup = now := by
    simp only [CostLimiter._cleanup_old_sessions]
    rw [if_neg hg]
    rw [cleanup_foldl_fields]
    exact ⟨foldl_alRemove_eq_filter _ _, foldl_alRemove_eq_filter _ _, rfl⟩
  refine ⟨?_, hfields.2.1, hfields.2.2⟩
  · rw [hfields.1]
    refine List.filter_congr ?_
    intro p hp
    suffices hiff : (((st.session_requests.filter
        (fun q => staleSession (now - 3600) q.2)).map (fun q => q.1)).contains p.1) =
        staleSession (now - 3600) p.2 by
      rw [hiff]
    by_cases hstale : staleSession (now - 3600) p.2 = true
    · rw [hstale]
      have hmem : p.1 ∈ (st.session_requests.filter
          (fun q => staleSession (now - 3600) q.2)).map (fun q => q.1) :=
        List.mem_map.mpr ⟨p, List.mem_filter.mpr ⟨hp, hstale⟩, rfl⟩
      exact List.elem_eq_true_of_mem hmem
    · have hstale' : staleSession (now - 3600) p.2 = false :=
        Bool.not_eq_true _ |>.mp hstale
      rw [hstale']
      cases hcon : ((st.session_requests.filter
          (fun q => staleSession (now - 3600) q.2)).map (fun q => q.1)).contains p.1
      · rfl
      · exfalso
        have hpmem : p.1 ∈ (st.session_requests.filter
            (fun q => staleSession (now - 3600) q.2)).map (fun q => q.1) :=
          List.elem_iff.mp hcon
        obtain ⟨q, hq, hq1⟩ := List.mem_map.mp hpmem
        have hql : q ∈ st.session_requests := (List.mem_filter.mp hq).1
        have hqstale := (List.mem_filter.mp hq).2
        have hqp : q = p :=
          List.inj_on_of_nodup_map hnd hql hp hq1
        rw [hqp] at hqstale
        rw [hstale'] at hqstale
        cases hqstale

/-- Concrete limiter state for the C10 witness: session `"a"` is non-empty
and stale, `"b"` has an empty (previously trimmed) deque, `"c"` is fresh. -/
def cleanupWitnessState : CostLimiter :=
  ⟨[("a", [(10, 0)]), ("b", []), ("c", [(3990, 0)])], [("a", 1), ("b", 2)],
    0, 3600, 10, 100, 2000⟩

/-- Witness for C10: at `now = 4000` the pass removes exactly session
`"a"`, keeps the empty-deque session `"b"` and the fresh session `"c"`. -/
theorem cleanup_removes_exactly_stale_witness :
    (cleanupWitnessState.session_requests.map Prod.fst).Nodup
    ∧ ¬ ((4000 : Nat) - cleanupWitnessState.last_cleanup <
          cleanupWitnessState.cleanup_interval)
    ∧ (cleanupWitnessState._cleanup_old_sessions 4000).session_requests =
        cleanupWitnessState.session_requests.filter
          (fun p => !staleSession (4000 - 3600) p.2)
    ∧ (cleanupWitnessState._cleanup_old_sessions 4000).session_costs =
        cleanupWitnessState.session_costs.filter (fun q =>
          !(((cleanupWitnessState.session_requests.filter
              (fun p => staleSession (4000 - 3600) p.2)).map
                (fun p => p.1)).contains q.1))
    ∧ (cleanupWitnessState._cleanup_old_sessions 4000).last_cleanup = 4000 := by
  refine ⟨by decide, by decide, ?_, ?_, ?_⟩
  · exact (cleanup_removes_exactly_stale cleanupWitnessState 4000 (by decide)
      (by decide)).1
  · exact (cleanup_removes_exactly_stale cleanupWitnessState 4000 (by decide)
      (by decide)).2.1
  · exact (cleanup_removes_exactly_stale cleanupWitnessState 4000 (by decide)
      (by decide)).2.2

/-! ### C6 — the session tier blocks at the configured limit -/

/-- The check-then-record protocol of the claim: run the given number of
rounds at time `now` for one session with no storage client, calling
`record_request` after every allowed check.  A raising check (possible only
for `session_limit ≤ 0`) stops the run early. -/
def runSession (session_id portfolio_id : String) (now : Nat) :
    Nat → CostLimiter → CostLimiter × List Decision
  | 0, st => (st, [])
  | k + 1, st =>
    match st.check_limits session_id portfolio_id none now with
    | .error _ => (st, [])
    | .ok (st', d) =>
        let st'' := if d.allowed then st'.record_request session_id now 0
                    else st'
        let r := runSession session_id portfolio_id now k st''
        (r.1, d :: r.2)

/-- Intermediate protocol state: one tracked session holding `i` requests,
all recorded at time `now`. -/
def sessionState (session_limit daily_limit monthly_limit : Int) (t0 : Nat)
    (sid : String) (cs : List (String × Int)) (i : Nat) (now : Nat) :
    CostLimiter :=
  ⟨[(sid, List.replicate i (now, 0))], cs, t0, 3600,
    session_limit, daily_limit, monthly_limit⟩

/-- Decision the session tier produces in protocol state `i`: allowed below
the limit, the session rejection at or above it. -/
def expectedDecision (i : Nat) (session_limit : Int) (now : Nat) : Decision :=
  if (i : Int) < session_limit then ⟨true, none, none, none, none⟩
  else ⟨false, some "session",
        some ("Rate limit exceeded. You have made " ++ toString i
          ++ " requests in the last hour. Please try again in "
          ++ toString ((3600 - (now - now)) / 60) ++ " minutes."),
        some session_limit, none⟩

theorem trim_replicate (now : Nat) (i : Nat) :
    trimOld now (List.replicate i ((now : Nat), (0 : Int))) =
      List.replicate i (now, 0) := by
  cases i with
  | zero => rfl
  | succ n => simp [List.replicate_succ, trimOld]

theorem alGetD_single {β : Type} (sid : String) (r : β) (d : β) :
    alGetD [(sid, r)] sid d = r := by
  simp [alGetD]

theorem alSet_single {β : Type} (sid : String) (r r' : β) :
    alSet [(sid, r)] sid r' = [(sid, r')] := by
  simp [alSet]

theorem cleanup_skips_at (L dL mL : Int) (t0 : Nat) (sid : String)
    (cs : List (String × Int)) (i now : Nat) (hg : now - t0 < 3600) :
    (sessionState L dL mL t0 sid cs i now)._cleanup_old_sessions now =
      sessionState L dL mL t0 sid cs i now := by
  simp [CostLimiter._cleanup_old_sessions, sessionState, hg]

theorem check_session_allowed_at (L dL mL : Int) (t0 : Nat) (sid : String)
    (cs : List (String × Int)) (i now : Nat) (hi : (i : Int) < L) :
    (sessionState L dL mL t0 sid cs i now)._check_session_limit sid now =
      .ok (sessionState L dL mL t0 sid cs i now, true, none) := by
  have hnot : ¬ (((List.replicate i ((now : Nat), (0 : Int))).length : Int) ≥ L) := by
    rw [List.length_replicate]
    exact not_le.mpr hi
  simp only [CostLimiter._check_session_limit, sessionState, alGetD_single,
    trim_replicate, alSet_single]
  rw [if_neg hnot]

theorem check_session_blocked_at (L dL mL : Int) (t0 : Nat) (sid : String)
    (cs : List (String × Int)) (n now : Nat)
    (hi : ¬ (((n + 1 : Nat) : Int) < L)) :
    (sessionState L dL mL t0 sid cs (n + 1) now)._check_session_limit sid now =
      .ok (sessionState L dL mL t0 sid cs (n + 1) now, false,
           some ("Rate limit exceeded. You have made " ++ toString (n + 1)
             ++ " requests in the last hour. Please try again in "
             ++ toString ((3600 - (now - now)) / 60) ++ " minutes.")) := by
  have hge : (((List.replicate (n + 1) ((now : Nat), (0 : Int))).length : Int) ≥ L) := by
    rw [List.length_replicate]
    exact le_of_not_lt hi
  simp only [CostLimiter._check_session_limit, sessionState, alGetD_single,
    trim_replicate, alSet_single]
  rw [if_pos hge]
  rw [List.replicate_succ]
  simp [List.length_replicate]

theorem check_limits_at (L dL mL : Int) (t0 : Nat) (sid pid : String)
    (cs : List (String × Int)) (i now : Nat) (hg : now - t0 < 3600)
    (hok : 0 < i ∨ (i : Int) < L) :
    (sessionState L dL mL t0 sid cs i now).check_limits sid pid none now =
      .ok (sessionState L dL mL t0 sid cs i now, expectedDecision i L now) := by
  simp only [CostLimiter.check_limits, cleanup_skips_at L dL mL t0 sid cs i now hg]
  by_cases hi : (i : Int) < L
  · rw [check_session_allowed_at L dL mL t0 sid cs i now hi]
    simp [expectedDecision, hi]
  · cases i with
    | zero =>
        rcases hok with h0 | hL
        · exact absurd h0 (by omega)
        · exact absurd hL hi
    | succ n =>
        rw [check_session_blocked_at L dL mL t0 sid cs n now hi]
        have hi' : ¬ ((n : Int) + 1 < L) := by exact_mod_cast hi
        simp [expectedDecision, hi, hi', sessionState]

theorem record_at (L dL mL : Int) (t0 : Nat) (sid : String)
    (cs : List (String × Int)) (i now : Nat) (hi : i < 100) :
    (sessionState L dL mL t0 sid cs i now).record_request sid now 0 =
      sessionState L dL mL t0 sid (alSet cs sid (alGetD cs sid 0 + 0)) (i + 1)
        now := by
  have hlen : ¬ ((List.replicate i ((now : Nat), (0 : Int))).length ≥ 100) := by
    rw [List.length_replicate]
    omega
  simp only [CostLimiter.record_request, sessionState, alGetD_single,
    alSet_single, dequeAppend]
  rw [if_neg hlen]
  rw [← List.replicate_succ']

theorem runSession_tail_spec (L : Nat) (dL mL : Int) (t0 T : Nat)
    (sid pid : String) (hg : T - t0 < 3600) (hL : 0 < L) (hL100 : L ≤ 100) :
    ∀ k i cs, i ≤ L →
      (((runSession sid pid T k
          (sessionState (L : Int) dL mL t0 sid cs i T)).2.take (L - i)).all
            (fun d => d.allowed) = true
      ∧ ∀ j, j < k →
          (((runSession sid pid T k
              (sessionState (L : Int) dL mL t0 sid cs i T)).2.getD j
                ⟨true, none, none, none, none⟩).allowed,
           ((runSession sid pid T k
              (sessionState (L : Int) dL mL t0 sid cs i T)).2.getD j
                ⟨true, none, none, none, none⟩).tier) =
            if i + j < L then (true, none) else (false, some "session")) := by
  intro k
  induction k with
  | zero =>
      intro i cs hiL
      exact ⟨by simp [runSession], by intro j hj; omega⟩
  | succ k ih =>
      intro i cs hiL
      by_cases hi : i < L
      · have hicast : (i : Int) < (L : Int) := by exact_mod_cast hi
        have hstep : runSession sid pid T (k + 1)
            (sessionState (L : Int) dL mL t0 sid cs i T) =
            ((runSession sid pid T k
                (sessionState (L : Int) dL mL t0 sid
                  (alSet cs sid (alGetD cs sid 0 + 0)) (i + 1) T)).1,
             (⟨true, none, none, none, none⟩ : Decision) ::
               (runSession sid pid T k
                (sessionState (L : Int) dL mL t0 sid
                  (alSet cs sid (alGetD cs sid 0 + 0)) (i + 1) T)).2) := by
          simp only [runSession, check_limits_at (L : Int) dL mL t0 sid pid cs i T hg
            (Or.inr hicast)]
          simp only [expectedDecision, if_pos hicast]
          rw [record_at (L : Int) dL mL t0 sid cs i T (by omega)]
          simp
        obtain ⟨ihtake, ihpt⟩ := ih (i + 1) (alSet cs sid (alGetD cs sid 0 + 0))
          (by omega)
        constructor
        · rw [hstep]
          have hsub : L - i = (L - (i + 1)) + 1 := by omega
          rw [hsub]
          simp only [List.take_succ_cons, List.all_cons]
          exact ihtake
        · intro j hj
          rw [hstep]
          cases j with
          | zero =>
              simp only [List.getD_cons_zero]
              rw [if_pos (by omega)]
          | succ j' =>
              simp only [List.getD_cons_succ]
              have := ihpt j' (by omega)
              rw [this, show i + 1 + j' = i + (j' + 1) from by omega]
      · have hieq : i = L := by omega
        have hL0 : 0 < i := by omega
        have hicast : ¬ ((i : Int) < (L : Int)) := by exact_mod_cast hi
        have hstep : runSession sid pid T (k + 1)
            (sessionState (L : Int) dL mL t0 sid cs i T) =
            ((runSession sid pid T k
                (sessionState (L : Int) dL mL t0 sid cs i T)).1,
             (expectedDecision i (L : Int) T) ::
               (runSession sid pid T k
                (sessionState (L : Int) dL mL t0 sid cs i T)).2) := by
          simp only [runSession, check_limits_at (L : Int) dL mL t0 sid pid cs i T hg
            (Or.inl hL0)]
          simp [expectedDecision, hicast, hi]
        obtain ⟨ihtake, ihpt⟩ := ih i cs hiL
        constructor
        · rw [hstep]
          have hsub : L - i = 0 := by omega
          rw [hsub]
          rfl
        · intro j hj
          rw [hstep]
          cases j with
          | zero =>
              simp only [List.getD_cons_zero, expectedDecision, if_neg hicast]
              rw [if_neg (by omega)]
          | succ j' =>
              simp only [List.getD_cons_succ]
              have := ihpt j' (by omega)
              rw [this, if_neg (by omega), if_neg (by omega)]

theorem init_first_check (L : Nat) (dL mL : Int) (t0 T : Nat) (sid pid : String)
    (hg : T - t0 < 3600) (hL : 0 < L) :
    (CostLimiter.init (L : Int) dL mL t0).check_limits sid pid none T =
      .ok (sessionState (L : Int) dL mL t0 sid [] 0 T,
           ⟨true, none, none, none, none⟩) := by
  have hneg : ¬ ((0 : Int) ≥ (L : Int)) := by
    simp only [ge_iff_le, not_le]
    exact_mod_cast hL
  have hcl : (CostLimiter.init (L : Int) dL mL t0)._cleanup_old_sessions T =
      CostLimiter.init (L : Int) dL mL t0 := by
    simp [CostLimiter._cleanup_old_sessions, CostLimiter.init, hg]
  have hchk : (CostLimiter.init (L : Int) dL mL t0)._check_session_limit sid T =
      .ok (sessionState (L : Int) dL mL t0 sid [] 0 T, true, none) := by
    simp [CostLimiter._check_session_limit, CostLimiter.init, alGetD, alSet,
      trimOld, sessionState, hneg]
  simp [CostLimiter.check_limits, hcl, hchk]

/-- Claim C6, amended: for a configured session limit `1 ≤ L ≤ 100` (the
hard cap of the request deque, `deque(maxlen=100)`), a single fresh session
following the check-then-record protocol within one trailing hour gets its
first `L` checks allowed, and the `(L+1)`-th check rejected with tier
`"session"`. -/
theorem session_tier_blocks_at_limit (L : Nat) (dL mL : Int) (t0 T : Nat)
    (sid pid : String) (h1 : 1 ≤ L) (h2 : L ≤ 100) (hg : T - t0 < 3600) :
    ((runSession sid pid T (L + 1) (CostLimiter.init (L : Int) dL mL t0)).2.take
        L).all (fun d => d.allowed) = true
    ∧ ((runSession sid pid T (L + 1) (CostLimiter.init (L : Int) dL mL t0)).2.getD
        L ⟨true, none, none, none, none⟩).allowed = false
    ∧ ((runSession sid pid T (L + 1) (CostLimiter.init (L : Int) dL mL t0)).2.getD
        L ⟨true, none, none, none, none⟩).tier = some "session" := by
  have hstep : runSession sid pid T (L + 1) (CostLimiter.init (L : Int) dL mL t0) =
      ((runSession sid pid T L (sessionState (L : Int) dL mL t0 sid
          (alSet [] sid (alGetD [] sid 0 + 0)) 1 T)).1,
       (⟨true, none, none, none, none⟩ : Decision) ::
         (runSession sid pid T L (sessionState (L : Int) dL mL t0 sid
            (alSet [] sid (alGetD [] sid 0 + 0)) 1 T)).2) := by
    simp only [runSession, init_first_check L dL mL t0 T sid pid hg (by omega)]
    rw [record_at (L : Int) dL mL t0 sid [] 0 T (by omega)]
    simp
  obtain ⟨htake, hpt⟩ := runSession_tail_spec L dL mL t0 T sid pid hg (by omega)
    (by omega) L 1 (alSet [] sid (alGetD [] sid 0 + 0)) (by omega)
  obtain ⟨Lm, rfl⟩ : ∃ Lm, L = Lm + 1 := ⟨L - 1, by omega⟩
  refine ⟨?_, ?_, ?_⟩
  · rw [hstep]
    simp only [List.take_succ_cons, List.all_cons]
    have hLm : (Lm + 1) - 1 = Lm := by omega
    rw [hLm] at htake
    simpa using htake
  · rw [hstep]
    simp only [List.getD_cons_succ]
    have hthis := hpt Lm (by omega)
    rw [if_neg (by omega)] at hthis
    simp only [Prod.mk.injEq] at hthis
    exact hthis.1
  · rw [hstep]
    simp only [List.getD_cons_succ]
    have hthis := hpt Lm (by omega)
    rw [if_neg (by omega)] at hthis
    simp only [Prod.mk.injEq] at hthis
    exact hthis.2

/-- Claim C6, counterexample: the claim quantifies over *every* configured
session limit, but the request deque is created with `maxlen = 100`, so for
`session_limit = 101` the window can never hold more than 100 entries: the
first 101 checks are allowed and the `(L+1)`-th = 102nd check is *still*
`allowed = true` instead of the claimed session rejection. -/
theorem session_limit_above_cap_never_blocks :
    ((runSession "s" "p" 0 102 (CostLimiter.init 101 100 2000 0)).2.take
        101).all (fun d => d.allowed) = true
    ∧ ((runSession "s" "p" 0 102 (CostLimiter.init 101 100 2000 0)).2.getD 101
        ⟨false, none, none, none, none⟩).allowed = true := by
  exact ⟨by decide, by decide⟩

/-- Witness for the amended C6 theorem at `L = 3`. -/
theorem session_tier_blocks_at_limit_witness :
    1 ≤ 3 ∧ 3 ≤ 100 ∧ (0 : Nat) - 0 < 3600
    ∧ ((runSession "s" "p" 0 (3 + 1) (CostLimiter.init ((3 : Nat) : Int) 100
        2000 0)).2.take 3).all (fun d => d.allowed) = true
    ∧ ((runSession "s" "p" 0 (3 + 1) (CostLimiter.init ((3 : Nat) : Int) 100
        2000 0)).2.getD 3 ⟨true, none, none, none, none⟩).allowed = false
    ∧ ((runSession "s" "p" 0 (3 + 1) (CostLimiter.init ((3 : Nat) : Int) 100
        2000 0)).2.getD 3 ⟨true, none, none, none, none⟩).tier = some "session" := by
  have happ := session_tier_blocks_at_limit 3 100 2000 0 0 "s" "p" (by decide)
    (by decide) (by decide)
  exact ⟨by decide, by decide, by decide, happ.1, happ.2.1, happ.2.2⟩

/-! ### C2 — tier precedence, short-circuit and decision shape

The specification-side admission check below is written from the spec's
words, independently of the Python control flow: the tiers are listed in
precedence order (session, then daily, then monthly — the persisted tiers
only when a storage collaborator is configured), the first violated tier
answers, and a passing run answers `allowed` with no tier.  The refinement
theorem states that `check_limits` produces exactly this decision. -/

/-- Outcome fields of the spec's `AdmissionDecision` (the human-readable
message is compared only for presence, not for its exact text). -/
structure SpecOutcome where
  allowed : Bool
  tier : Option String
  limit : Option Int
  current : Option Int
deriving DecidableEq

/-- Spec §4.4 tier 1: reject when the session's trailing-1-hour request
count has reached the session limit. -/
def specSessionViolation (windowCount : Nat) (session_limit : Int) :
    Option SpecOutcome :=
  if (windowCount : Int) ≥ session_limit then
    some ⟨false, some "session", some session_limit, none⟩
  else none

/-- Spec §4.4 tiers 2/3: reject when the observed ledger count has reached
the tier's limit; a failing ledger lookup never violates (fail-open). -/
def specLedgerViolation (tierName : String) (result : Except String Int)
    (limit : Int) : Option SpecOutcome :=
  match result with
  | .error _ => none
  | .ok n =>
      if n ≥ limit then some ⟨false, some tierName, some limit, some n⟩
      else none

/-- Spec §3: the session's trailing-1-hour request count — entries older
than the window are logically excluded. -/
def specWindowCount (now : Nat) (reqs : List (Nat × Int)) : Nat :=
  (reqs.filter (fun e => decide (now - e.1 ≤ 3600))).length

/-- First violated tier in precedence order, if any. -/
def firstViolation : List (Option SpecOutcome) → Option SpecOutcome
  | [] => none
  | some o :: _ => some o
  | none :: rest => firstViolation rest

/-- The spec's admission check: evaluate the tiers in precedence order
(the persisted tiers are listed only when a storage collaborator is
configured) and answer with the first violation, or `allowed` with no
tier. -/
def specCheck (windowCount : Nat)
    (session_limit daily_limit monthly_limit : Int) (db : Option Ledger) :
    SpecOutcome :=
  let tiers :=
    [specSessionViolation windowCount session_limit] ++
      (match db with
       | none => []
       | some l => [specLedgerViolation "daily" l.daily daily_limit,
                    specLedgerViolation "monthly" l.monthly monthly_limit])
  match firstViolation tiers with
  | some o => o
  | none => ⟨true, none, none, none⟩

theorem cleanup_limits (st : CostLimiter) (now : Nat) :
    (st._cleanup_old_sessions now).session_limit = st.session_limit
    ∧ (st._cleanup_old_sessions now).daily_limit = st.daily_limit
    ∧ (st._cleanup_old_sessions now).monthly_limit = st.monthly_limit := by
  by_cases hg : now - st.last_cleanup < st.cleanup_interval
  · simp [CostLimiter._cleanup_old_sessions, hg]
  · simp only [CostLimiter._cleanup_old_sessions]
    rw [if_neg hg, cleanup_foldl_fields]
    exact ⟨rfl, rfl, rfl⟩

theorem cleanup_requests_char (st : CostLimiter) (now : Nat)
    (hg : ¬ (now - st.last_cleanup < st.cleanup_interval)) :
    (st._cleanup_old_sessions now).session_requests =
      st.session_requests.filter (fun p =>
        !(((st.session_requests.filter
            (fun q => staleSession (now - 3600) q.2)).map
              (fun q => q.1)).contains p.1)) := by
  simp only [CostLimiter._cleanup_old_sessions]
  rw [if_neg hg, cleanup_foldl_fields]
  exact foldl_alRemove_eq_filter _ _

theorem alGetD_filter {β : Type} (l : List (String × β))
    (keep : String × β → Bool) (k : String) (d : β)
    (hnd : (l.map Prod.fst).Nodup) :
    alGetD (l.filter keep) k d =
      (match l.find? (fun p => p.1 == k) with
       | none => d
       | some p => if keep p then p.2 else d) := by
  induction l with
  | nil => rfl
  | cons a t ih =>
      have hnd' : (a.1 :: t.map Prod.fst).Nodup := by simpa using hnd
      have ha : a.1 ∉ t.map Prod.fst := (List.nodup_cons.mp hnd').1
      have ht : (t.map Prod.fst).Nodup := (List.nodup_cons.mp hnd').2
      by_cases hak : (a.1 == k) = true
      · have hfind : (a :: t).find? (fun p => p.1 == k) = some a :=
          List.find?_cons_of_pos _ hak
        rw [hfind]
        have hkeq : a.1 = k := by simpa using hak
        have htnone : ∀ q ∈ t.filter keep, ¬ ((fun p => p.1 == k) q = true) := by
          intro q hq hqk
          have hqt : q ∈ t := (List.mem_filter.mp hq).1
          have hqe : q.1 = k := by simpa using hqk
          exact ha (by
            rw [← hkeq] at hqe
            exact List.mem_map.mpr ⟨q, hqt, hqe⟩)
        show alGetD ((a :: t).filter keep) k d = if keep a = true then a.2 else d
        by_cases hka : keep a = true
        · rw [if_pos hka]
          simp only [List.filter_cons, hka, if_true]
          unfold alGetD
          have hfp : List.find? (fun p => p.1 == k) (a :: t.filter keep) =
              some a := List.find?_cons_of_pos _ hak
          rw [hfp]
        · rw [if_neg hka]
          have hka' : keep a = false := Bool.not_eq_true _ |>.mp hka
          simp only [List.filter_cons, hka', Bool.false_eq_true, if_false]
          unfold alGetD
          rw [List.find?_eq_none.mpr htnone]
      · have hfind : (a :: t).find? (fun p => p.1 == k) =
            t.find? (fun p => p.1 == k) :=
          List.find?_cons_of_neg _ hak
        rw [hfind]
        by_cases hka : keep a = true
        · simp only [List.filter_cons, hka, if_true]
          have hstep : alGetD (a :: t.filter keep) k d =
              alGetD (t.filter keep) k d := by
            unfold alGetD
            have hfn : List.find? (fun p => p.1 == k) (a :: t.filter keep) =
                List.find? (fun p => p.1 == k) (t.filter keep) :=
              List.find?_cons_of_neg _ hak
            rw [hfn]
          rw [hstep]
          exact ih ht
        · have hka' : keep a = false := Bool.not_eq_true _ |>.mp hka
          simp only [List.filter_cons, hka', Bool.false_eq_true, if_false]
          exact ih ht

theorem trim_count_of_monotone (now : Nat) (l : List (Nat × Int))
    (hmono : l.Pairwise (fun a b => a.1 ≤ b.1)) :
    (trimOld now l).length = specWindowCount now l := by
  induction l with
  | nil => rfl
  | cons e t ih =>
      have he : ∀ x ∈ t, e.1 ≤ x.1 := (List.pairwise_cons.mp hmono).1
      have ht := (List.pairwise_cons.mp hmono).2
      by_cases hst : now - e.1 > 3600
      · have hdrop : decide (now - e.1 ≤ 3600) = false := by
          simp only [decide_eq_false_iff_not, not_le]
          omega
        simp only [trimOld, if_pos hst, specWindowCount, List.filter_cons,
          hdrop, Bool.false_eq_true, if_false]
        exact ih ht
      · have hkeep : decide (now - e.1 ≤ 3600) = true := by
          simp only [decide_eq_true_eq]
          omega
        have hallfresh : ∀ x ∈ t, decide (now - x.1 ≤ 3600) = true := by
          intro x hx
          have := he x hx
          simp only [decide_eq_true_eq]
          omega
        have hfilter : t.filter (fun x => decide (now - x.1 ≤ 3600)) = t :=
          List.filter_eq_self.mpr hallfresh
        simp only [trimOld, if_neg hst, specWindowCount, List.filter_cons,
          hkeep, if_true, List.length_cons, hfilter]

theorem mem_le_getLast (l : List (Nat × Int)) (e : Nat × Int)
    (hmono : l.Pairwise (fun a b => a.1 ≤ b.1)) (hl : l.getLast? = some e) :
    ∀ x ∈ l, x.1 ≤ e.1 := by
  induction l with
  | nil => cases hl
  | cons a t ih =>
      cases t with
      | nil =>
          intro x hx
          have hae : a = e := by simpa using hl
          have hxa : x = a := by simpa using hx
          rw [hxa, hae]
      | cons b t2 =>
          have hl2 : (b :: t2).getLast? = some e := by
            simpa [List.getLast?_cons_cons] using hl
          have he : ∀ x ∈ b :: t2, a.1 ≤ x.1 := (List.pairwise_cons.mp hmono).1
          have ht := (List.pairwise_cons.mp hmono).2
          have ihall := ih ht hl2
          intro x hx
          rcases List.mem_cons.mp hx with hxa | hxt
          · rw [hxa]
            exact le_trans (he b (by simp)) (ihall b (by simp))
          · exact ihall x hxt

theorem stale_empty_count (now : Nat) (l : List (Nat × Int))
    (hmono : l.Pairwise (fun a b => a.1 ≤ b.1))
    (hstale : staleSession (now - 3600) l = true) :
    specWindowCount now l = 0 := by
  rcases hlast : l.getLast? with _ | e
  · simp [staleSession, hlast] at hstale
  · have hecut : e.1 < now - 3600 := by
      simpa [staleSession, hlast] using hstale
    have hall := mem_le_getLast l e hmono hlast
    simp only [specWindowCount, List.length_eq_zero]
    refine List.filter_eq_nil_iff.mpr ?_
    intro x hx
    have := hall x hx
    simp only [decide_eq_true_eq, not_le]
    omega

theorem stale_ids_contains (l : List (String × List (Nat × Int)))
    (cutoff : Nat) (hnd : (l.map Prod.fst).Nodup) (p : String × List (Nat × Int))
    (hp : p ∈ l) :
    ((l.filter (fun q => staleSession cutoff q.2)).map
        (fun q => q.1)).contains p.1 = staleSession cutoff p.2 := by
  by_cases hstale : staleSession cutoff p.2 = true
  · rw [hstale]
    have hmem : p.1 ∈ (l.filter (fun q => staleSession cutoff q.2)).map
        (fun q => q.1) :=
      List.mem_map.mpr ⟨p, List.mem_filter.mpr ⟨hp, hstale⟩, rfl⟩
    exact List.elem_eq_true_of_mem hmem
  · have hstale' : staleSession cutoff p.2 = false :=
      Bool.not_eq_true _ |>.mp hstale
    rw [hstale']
    cases hcon : ((l.filter (fun q => staleSession cutoff q.2)).map
        (fun q => q.1)).contains p.1
    · rfl
    · exfalso
      have hpmem : p.1 ∈ (l.filter (fun q => staleSession cutoff q.2)).map
          (fun q => q.1) := List.elem_iff.mp hcon
      obtain ⟨q, hq, hq1⟩ := List.mem_map.mp hpmem
      have hql : q ∈ l := (List.mem_filter.mp hq).1
      have hqstale := (List.mem_filter.mp hq).2
      have hqp : q = p := List.inj_on_of_nodup_map hnd hql hp hq1
      rw [hqp, hstale'] at hqstale
      cases hqstale

/-- Tail of the admission check once the session tier has passed: the
daily and the monthly tier answer exactly as the spec's tier list does. -/
theorem check_limits_after_pass (st : CostLimiter) (sid pid : String)
    (db : Option Ledger) (now : Nat) (st' : CostLimiter) (d : Decision)
    (W : Nat) (st1 : CostLimiter)
    (hchk : (st._cleanup_old_sessions now)._check_session_limit sid now =
      .ok (st1, true, none))
    (hdl : st1.daily_limit = st.daily_limit)
    (hml : st1.monthly_limit = st.monthly_limit)
    (hspecsession : specSessionViolation W st.session_limit = none)
    (hok : st.check_limits sid pid db now = .ok (st', d)) :
    d.allowed = (specCheck W st.session_limit st.daily_limit st.monthly_limit
        db).allowed
    ∧ d.tier = (specCheck W st.session_limit st.daily_limit st.monthly_limit
        db).tier
    ∧ d.limit = (specCheck W st.session_limit st.daily_limit st.monthly_limit
        db).limit
    ∧ d.current = (specCheck W st.session_limit st.daily_limit st.monthly_limit
        db).current
    ∧ d.error.isSome = !d.allowed := by
  simp only [CostLimiter.check_limits, hchk, Bool.not_true,
    Bool.false_eq_true, if_false] at hok
  cases db with
  | none =>
      simp only [Except.ok.injEq, Prod.mk.injEq] at hok
      rw [← hok.2]
      simp [specCheck, hspecsession, firstViolation]
  | some l =>
      rcases hdres : l.daily with de | dn
      · rcases hmres : l.monthly with me | mn
        · simp only [hdres, hmres, CostLimiter._check_daily_limit,
            CostLimiter._check_monthly_limit, Bool.not_true,
            Bool.false_eq_true, if_false, Except.ok.injEq,
            Prod.mk.injEq] at hok
          rw [← hok.2]
          simp [specCheck, hspecsession, specLedgerViolation, hdres, hmres,
            firstViolation]
        · by_cases hnm : mn ≥ st1.monthly_limit
          · have hnm' : mn ≥ st.monthly_limit := hml ▸ hnm
            simp only [hdres, hmres, CostLimiter._check_daily_limit,
              CostLimiter._check_monthly_limit, if_pos hnm, Bool.not_true,
              Bool.not_false, Bool.false_eq_true, if_false, if_true,
              Except.ok.injEq, Prod.mk.injEq] at hok
            rw [← hok.2]
            simp [specCheck, hspecsession, specLedgerViolation, hdres, hmres,
              firstViolation, hnm', hml]
          · have hnm' : ¬ (mn ≥ st.monthly_limit) := by
              rw [← hml]
              exact hnm
            simp only [hdres, hmres, CostLimiter._check_daily_limit,
              CostLimiter._check_monthly_limit, if_neg hnm, Bool.not_true,
              Bool.false_eq_true, if_false, Except.ok.injEq,
              Prod.mk.injEq] at hok
            rw [← hok.2]
            simp [specCheck, hspecsession, specLedgerViolation, hdres, hmres,
              firstViolation, hnm']
      · by_cases hnd2 : dn ≥ st1.daily_limit
        · have hnd2' : dn ≥ st.daily_limit := hdl ▸ hnd2
          simp only [hdres, CostLimiter._check_daily_limit, if_pos hnd2,
            Bool.not_true, Bool.not_false, Bool.false_eq_true, if_false,
            if_true, Except.ok.injEq, Prod.mk.injEq] at hok
          rw [← hok.2]
          simp [specCheck, hspecsession, specLedgerViolation, hdres,
            firstViolation, hnd2', hdl]
        · have hnd2' : ¬ (dn ≥ st.daily_limit) := by
            rw [← hdl]
            exact hnd2
          rcases hmres : l.monthly with me | mn
          · simp only [hdres, hmres, CostLimiter._check_daily_limit,
              CostLimiter._check_monthly_limit, if_neg hnd2, Bool.not_true,
              Bool.false_eq_true, if_false, Except.ok.injEq,
              Prod.mk.injEq] at hok
            rw [← hok.2]
            simp [specCheck, hspecsession, specLedgerViolation, hdres, hmres,
              firstViolation, hnd2']
          · by_cases hnm : mn ≥ st1.monthly_limit
            · have hnm' : mn ≥ st.monthly_limit := hml ▸ hnm
              simp only [hdres, hmres, CostLimiter._check_daily_limit,
                CostLimiter._check_monthly_limit, if_neg hnd2, if_pos hnm,
                Bool.not_true, Bool.not_false, Bool.false_eq_true, if_false,
                if_true, Except.ok.injEq, Prod.mk.injEq] at hok
              rw [← hok.2]
              simp [specCheck, hspecsession, specLedgerViolation, hdres,
                hmres, firstViolation, hnm', hml, hnd2']
            · have hnm' : ¬ (mn ≥ st.monthly_limit) := by
                rw [← hml]
                exact hnm
              simp only [hdres, hmres, CostLimiter._check_daily_limit,
                CostLimiter._check_monthly_limit, if_neg hnd2, if_neg hnm,
                Bool.not_true, Bool.false_eq_true, if_false, Except.ok.injEq,
                Prod.mk.injEq] at hok
              rw [← hok.2]
              simp [specCheck, hspecsession, specLedgerViolation, hdres,
                hmres, firstViolation, hnd2', hnm']

/-- Claim C2, the refinement theorem: on any state whose dictionary keys
are unique and whose queried session deque has monotone timestamps (the
spec's own SessionWindow invariant), a `check_limits` call that returns a
decision returns exactly the decision of the spec-side `specCheck` — the
tiers evaluated in strict precedence order, the first violated tier
answering with its name, the configured limit and (for the persisted
tiers) the observed count, the persisted tiers skipped when no storage
client is supplied, the fully-passing run answering `allowed` with no tier
— and the human-readable error message is present exactly on rejection. -/
theorem check_limits_matches_spec (st : CostLimiter) (sid pid : String)
    (db : Option Ledger) (now : Nat) (st' : CostLimiter) (d : Decision)
    (hnd : (st.session_requests.map Prod.fst).Nodup)
    (hmono : (alGetD st.session_requests sid []).Pairwise
      (fun a b => a.1 ≤ b.1))
    (hok : st.check_limits sid pid db now = .ok (st', d)) :
    d.allowed = (specCheck (specWindowCount now (alGetD st.session_requests sid []))
        st.session_limit st.daily_limit st.monthly_limit db).allowed
    ∧ d.tier = (specCheck (specWindowCount now (alGetD st.session_requests sid []))
        st.session_limit st.daily_limit st.monthly_limit db).tier
    ∧ d.limit = (specCheck (specWindowCount now (alGetD st.session_requests sid []))
        st.session_limit st.daily_limit st.monthly_limit db).limit
    ∧ d.current = (specCheck (specWindowCount now (alGetD st.session_requests sid []))
        st.session_limit st.daily_limit st.monthly_limit db).current
    ∧ d.error.isSome = !d.allowed := by
  have hlim := cleanup_limits st now
  have hcount : (trimOld now
      (alGetD (st._cleanup_old_sessions now).session_requests sid [])).length
      = specWindowCount now (alGetD st.session_requests sid []) := by
    by_cases hg : now - st.last_cleanup < st.cleanup_interval
    · have hid : st._cleanup_old_sessions now = st := by
        simp [CostLimiter._cleanup_old_sessions, hg]
      rw [hid]
      exact trim_count_of_monotone now _ hmono
    · rw [cleanup_requests_char st now hg]
      rw [alGetD_filter _ _ _ _ hnd]
      rcases hfind : st.session_requests.find? (fun p => p.1 == sid) with _ | p
      · have hr0 : alGetD st.session_requests sid [] = [] := by
          simp [alGetD, hfind]
        rw [hfind, hr0]
        rfl
      · have hr0 : alGetD st.session_requests sid [] = p.2 := by
          simp [alGetD, hfind]
        have hpm : p ∈ st.session_requests := List.mem_of_find?_eq_some hfind
        have hcontains := stale_ids_contains st.session_requests (now - 3600)
          hnd p hpm
        rw [hfind]
        dsimp only
        rw [hr0] at hmono ⊢
        by_cases hstale : staleSession (now - 3600) p.2 = true
        · have hkeep : (!(((st.session_requests.filter
              (fun q => staleSession (now - 3600) q.2)).map
                (fun q => q.1)).contains p.1)) = false := by
            rw [hcontains, hstale]
            rfl
          rw [hkeep]
          simp only [Bool.false_eq_true, if_false]
          rw [stale_empty_count now p.2 hmono hstale]
          rfl
        · have hstale' : staleSession (now - 3600) p.2 = false :=
            Bool.not_eq_true _ |>.mp hstale
          have hkeep : (!(((st.session_requests.filter
              (fun q => staleSession (now - 3600) q.2)).map
                (fun q => q.1)).contains p.1)) = true := by
            rw [hcontains, hstale']
            rfl
          rw [hkeep]
          simp only [if_true]
          exact trim_count_of_monotone now p.2 hmono
  rcases htrim : trimOld now
      (alGetD (st._cleanup_old_sessions now).session_requests sid [])
    with _ | ⟨e0, rest⟩
  · -- the trimmed window is empty: the session count is 0
    rw [htrim] at hcount
    by_cases hblock : ((0 : Int) ≥ st.session_limit)
    · -- the rejecting branch reads requests[0] of an empty deque:
      -- the code raises IndexError, contradicting `hok`
      exfalso
      have hcond : ((([] : List (Nat × Int)).length : Int) ≥
          (st._cleanup_old_sessions now).session_limit) := by
        rw [hlim.1]
        simpa using hblock
      have hchk : (st._cleanup_old_sessions now)._check_session_limit sid now =
          .error "IndexError" := by
        simp only [CostLimiter._check_session_limit]
        rw [htrim, if_pos hcond]
      simp only [CostLimiter.check_limits, hchk] at hok
      exact Except.noConfusion hok
    · have hcond : ¬ ((([] : List (Nat × Int)).length : Int) ≥
          (st._cleanup_old_sessions now).session_limit) := by
        rw [hlim.1]
        simpa using hblock
      have hchk : (st._cleanup_old_sessions now)._check_session_limit sid now =
          .ok ({ st._cleanup_old_sessions now with
                 session_requests :=
                   alSet (st._cleanup_old_sessions now).session_requests sid [] },
               true, none) := by
        simp only [CostLimiter._check_session_limit]
        rw [htrim, if_neg hcond]
      have hspecsession : specSessionViolation
          (specWindowCount now (alGetD st.session_requests sid []))
          st.session_limit = none := by
        simp only [specSessionViolation, ← hcount]
        rw [if_neg (by simpa using hblock)]
      exact check_limits_after_pass st sid pid db now st' d _ _ hchk
        hlim.2.1 hlim.2.2 hspecsession hok
  · -- non-empty trimmed window
    rw [htrim] at hcount
    by_cases hblock : (((e0 :: rest).length : Int) ≥
        (st._cleanup_old_sessions now).session_limit)
    · -- session tier violates: rejected with tier "session"
      have hchk : (st._cleanup_old_sessions now)._check_session_limit sid now =
          .ok ({ st._cleanup_old_sessions now with
                 session_requests :=
                   alSet (st._cleanup_old_sessions now).session_requests sid
                     (e0 :: rest) },
               false,
               some ("Rate limit exceeded. You have made "
                 ++ toString (e0 :: rest).length
                 ++ " requests in the last hour. Please try again in "
                 ++ toString ((3600 - (now - e0.1)) / 60) ++ " minutes.")) := by
        simp only [CostLimiter._check_session_limit]
        rw [htrim, if_pos hblock]
      have hspecsession : specSessionViolation
          (specWindowCount now (alGetD st.session_requests sid []))
          st.session_limit =
          some ⟨false, some "session", some st.session_limit, none⟩ := by
        simp only [specSessionViolation, ← hcount]
        rw [if_pos (by
          rw [← hlim.1]
          simpa using hblock)]
      simp only [CostLimiter.check_limits, hchk, Bool.not_false,
        if_true, Except.ok.injEq, Prod.mk.injEq] at hok
      rw [← hok.2]
      simp [specCheck, hspecsession, firstViolation, hlim.1]
    · -- session tier passes
      have hchk : (st._cleanup_old_sessions now)._check_session_limit sid now =
          .ok ({ st._cleanup_old_sessions now with
                 session_requests :=
                   alSet (st._cleanup_old_sessions now).session_requests sid
                     (e0 :: rest) },
               true, none) := by
        simp only [CostLimiter._check_session_limit]
        rw [htrim, if_neg hblock]
      have hspecsession : specSessionViolation
          (specWindowCount now (alGetD st.session_requests sid []))
          st.session_limit = none := by
        simp only [specSessionViolation, ← hcount]
        rw [if_neg (by
          rw [← hlim.1]
          simpa using hblock)]
      exact check_limits_after_pass st sid pid db now st' d _ _ hchk
        hlim.2.1 hlim.2.2 hspecsession hok

/-- Witness for C2 on a fresh limiter with a responding ledger whose counts
are below both persisted limits. -/
theorem check_limits_matches_spec_witness :
    ((CostLimiter.init 10 100 2000 0).session_requests.map Prod.fst).Nodup
    ∧ (alGetD (CostLimiter.init 10 100 2000 0).session_requests "s" []).Pairwise
        (fun a b => a.1 ≤ b.1)
    ∧ (CostLimiter.init 10 100 2000 0).check_limits "s" "p"
        (some ⟨.ok 3, .ok 5⟩) 0 =
        .ok (⟨[("s", [])], [], 0, 3600, 10, 100, 2000⟩,
             ⟨true, none, none, none, none⟩)
    ∧ (⟨true, none, none, none, none⟩ : Decision).allowed =
        (specCheck (specWindowCount 0
            (alGetD (CostLimiter.init 10 100 2000 0).session_requests "s" []))
          (CostLimiter.init 10 100 2000 0).session_limit
          (CostLimiter.init 10 100 2000 0).daily_limit
          (CostLimiter.init 10 100 2000 0).monthly_limit
          (some ⟨.ok 3, .ok 5⟩)).allowed
    ∧ (⟨true, none, none, none, none⟩ : Decision).tier =
        (specCheck (specWindowCount 0
            (alGetD (CostLimiter.init 10 100 2000 0).session_requests "s" []))
          (CostLimiter.init 10 100 2000 0).session_limit
          (CostLimiter.init 10 100 2000 0).daily_limit
          (CostLimiter.init 10 100 2000 0).monthly_limit
          (some ⟨.ok 3, .ok 5⟩)).tier
    ∧ (⟨true, none, none, none, none⟩ : Decision).limit =
        (specCheck (specWindowCount 0
            (alGetD (CostLimiter.init 10 100 2000 0).session_requests "s" []))
          (CostLimiter.init 10 100 2000 0).session_limit
          (CostLimiter.init 10 100 2000 0).daily_limit
          (CostLimiter.init 10 100 2000 0).monthly_limit
          (some ⟨.ok 3, .ok 5⟩)).limit
    ∧ (⟨true, none, none, none, none⟩ : Decision).current =
        (specCheck (specWindowCount 0
            (alGetD (CostLimiter.init 10 100 2000 0).session_requests "s" []))
          (CostLimiter.init 10 100 2000 0).session_limit
          (CostLimiter.init 10 100 2000 0).daily_limit
          (CostLimiter.init 10 100 2000 0).monthly_limit
          (some ⟨.ok 3, .ok 5⟩)).current
    ∧ (⟨true, none, none, none, none⟩ : Decision).error.isSome =
        !(⟨true, none, none, none, none⟩ : Decision).allowed := by
  have happ := check_limits_matches_spec (CostLimiter.init 10 100 2000 0) "s"
    "p" (some ⟨.ok 3, .ok 5⟩) 0
    ⟨[("s", [])], [], 0, 3600, 10, 100, 2000⟩
    ⟨true, none, none, none, none⟩ (by decide) List.Pairwise.nil (by rfl)
  exact ⟨by decide, List.Pairwise.nil, by rfl, happ.1, happ.2.1, happ.2.2.1,
    happ.2.2.2.1, happ.2.2.2.2⟩

end AIPortfolio
